import Mathlib

/-!
Verification of the admission-gate component (`WorkerPool` in
`crates/kreuzberg-node/src/worker_pool.rs`).

The Rust struct holds a fixed `size : usize` and a shared
`active_workers : Arc<AtomicUsize>`.  We embed `usize` as `Nat` reduced
modulo `2 ^ 64` (the target is a 64-bit platform; `fetch_add` and
`fetch_sub` on an atomic wrap silently).  Wrapping subtraction of 1 is
embedded as addition of `2 ^ 64 - 1` followed by the modulus.
-/

/-- The gate state.  `size` is the fixed capacity; `active_workers` is the
current value of the shared atomic counter (a `usize`, kept `< 2 ^ 64`). -/
structure WorkerPool where
  size : Nat
  active_workers : Nat
deriving DecidableEq, Repr

/-- Status codes of the binding layer; the constructor rejects a zero size
with `InvalidArg` (the spec calls this error `InvalidConfiguration`). -/
inductive Status where
  | InvalidArg
deriving DecidableEq, Repr

/-- An error of the binding layer: a status plus a message. -/
structure NapiError where
  status : Status
  message : String
deriving DecidableEq, Repr

/-- `WorkerPool::new`: rejects `size == 0`, otherwise returns a pool with
the given size and a fresh counter at `0`. -/
def WorkerPool.new (size : Nat) : Except NapiError WorkerPool :=
  if size = 0 then
    .error ⟨.InvalidArg, "Worker pool size must be greater than 0"⟩
  else
    .ok ⟨size, 0⟩

/-- `WorkerPool::can_accept_work`: a pure load comparing the counter with
the capacity; it reserves nothing. -/
def WorkerPool.can_accept_work (p : WorkerPool) : Bool :=
  p.active_workers < p.size

/-- `WorkerPool::increment_active`: `fetch_add(1)` on the counter,
wrapping modulo `2 ^ 64`. -/
def WorkerPool.increment_active (p : WorkerPool) : WorkerPool :=
  { p with active_workers := (p.active_workers + 1) % 2 ^ 64 }

/-- `WorkerPool::decrement_active`: `fetch_sub(1)` on the counter,
wrapping modulo `2 ^ 64` (adding `2 ^ 64 - 1` is subtracting 1 modulo
`2 ^ 64`). -/
def WorkerPool.decrement_active (p : WorkerPool) : WorkerPool :=
  { p with active_workers := (p.active_workers + (2 ^ 64 - 1)) % 2 ^ 64 }

/-- One call by some caller against the shared gate: either an
`increment_active` or a `decrement_active`.  A list of these is one
interleaving of the calls of any number of concurrent callers (each
individual atomic read-modify-write is indivisible, so every concurrent
execution is equivalent to some such list). -/
inductive GateOp where
  | incr
  | decr
deriving DecidableEq, Repr

/-- Apply one call to the gate state. -/
def WorkerPool.applyOp (p : WorkerPool) : GateOp → WorkerPool
  | .incr => p.increment_active
  | .decr => p.decrement_active

/-- Run an interleaving of calls left to right. -/
def WorkerPool.runOps (p : WorkerPool) (ops : List GateOp) : WorkerPool :=
  ops.foldl WorkerPool.applyOp p

theorem WorkerPool.runOps_nil (p : WorkerPool) : p.runOps [] = p := rfl

theorem WorkerPool.runOps_cons (p : WorkerPool) (op : GateOp) (ops : List GateOp) :
    p.runOps (op :: ops) = (p.applyOp op).runOps ops := rfl

theorem WorkerPool.applyOp_incr (p : WorkerPool) :
    p.applyOp GateOp.incr = p.increment_active := rfl

theorem WorkerPool.applyOp_decr (p : WorkerPool) :
    p.applyOp GateOp.decr = p.decrement_active := rfl

theorem WorkerPool.increment_active_size (p : WorkerPool) :
    (p.increment_active).size = p.size := by
  unfold WorkerPool.increment_active; rfl

theorem WorkerPool.decrement_active_size (p : WorkerPool) :
    (p.decrement_active).size = p.size := by
  unfold WorkerPool.decrement_active; rfl

theorem WorkerPool.increment_active_active (p : WorkerPool) :
    (p.increment_active).active_workers = (p.active_workers + 1) % 2 ^ 64 := by
  unfold WorkerPool.increment_active; rfl

theorem WorkerPool.decrement_active_active (p : WorkerPool) :
    (p.decrement_active).active_workers
      = (p.active_workers + (2 ^ 64 - 1)) % 2 ^ 64 := by
  unfold WorkerPool.decrement_active; rfl

theorem WorkerPool.applyOp_size (p : WorkerPool) (op : GateOp) :
    (p.applyOp op).size = p.size := by
  cases op with
  | incr => rw [WorkerPool.applyOp_incr, WorkerPool.increment_active_size]
  | decr => rw [WorkerPool.applyOp_decr, WorkerPool.decrement_active_size]

theorem WorkerPool.runOps_size (ops : List GateOp) :
    ∀ p : WorkerPool, (p.runOps ops).size = p.size := by
  induction ops with
  | nil => intro p; rfl
  | cons op ops ih =>
      intro p
      rw [WorkerPool.runOps_cons, ih, WorkerPool.applyOp_size]

theorem WorkerPool.applyOp_active_lt (p : WorkerPool) (op : GateOp) :
    (p.applyOp op).active_workers < 2 ^ 64 := by
  cases op with
  | incr =>
      rw [WorkerPool.applyOp_incr, WorkerPool.increment_active_active]
      exact Nat.mod_lt _ (by norm_num)
  | decr =>
      rw [WorkerPool.applyOp_decr, WorkerPool.decrement_active_active]
      exact Nat.mod_lt _ (by norm_num)

/-- Evolution of the counter under an interleaving: every call adds either
`1` or `2 ^ 64 - 1` modulo `2 ^ 64`, so only the number of increments and
decrements matters, not their order. -/
theorem WorkerPool.runOps_active (ops : List GateOp) :
    ∀ p : WorkerPool, p.active_workers < 2 ^ 64 →
      (p.runOps ops).active_workers
        = (p.active_workers + ops.count GateOp.incr
            + (2 ^ 64 - 1) * ops.count GateOp.decr) % 2 ^ 64 := by
  induction ops with
  | nil =>
      intro p hp
      simpa [WorkerPool.runOps] using (Nat.mod_eq_of_lt hp).symm
  | cons op ops ih =>
      intro p hp
      rw [WorkerPool.runOps_cons, ih _ (p.applyOp_active_lt op)]
      cases op with
      | incr =>
          rw [WorkerPool.applyOp_incr, WorkerPool.increment_active_active,
            Nat.add_assoc, Nat.mod_add_mod]
          simp [List.count_cons]
          congr 1
          ring
      | decr =>
          rw [WorkerPool.applyOp_decr, WorkerPool.decrement_active_active,
            Nat.add_assoc, Nat.mod_add_mod]
          simp [List.count_cons]
          congr 1
          ring

theorem WorkerPool.can_accept_work_eq (p : WorkerPool) :
    p.can_accept_work = decide (p.active_workers < p.size) := rfl

/-- C2: construction fails with the `InvalidArg` status (the spec's
`InvalidConfiguration`) exactly when the requested capacity is zero, and for
every positive capacity it succeeds with the counter at zero and the given
capacity.  Every other operation of the component is embedded as a total
function (in the source their signatures return plain values, not
`Result`), so construction is the only operation that can fail. -/
theorem new_fails_iff_zero_capacity :
    WorkerPool.new 0
        = .error ⟨.InvalidArg, "Worker pool size must be greater than 0"⟩
      ∧ ∀ s : Nat, 0 < s → WorkerPool.new s = .ok ⟨s, 0⟩ := by
  constructor
  · rfl
  · intro s hs
    unfold WorkerPool.new
    rw [if_neg (Nat.pos_iff_ne_zero.mp hs)]

theorem new_fails_iff_zero_capacity_witness :
    WorkerPool.new 1 = .ok ⟨1, 0⟩ :=
  new_fails_iff_zero_capacity.2 1 (by norm_num)

/-- C3: `can_accept_work` returns `false` exactly when the counter has
reached or passed the capacity and `true` exactly when it is strictly
below; it is a pure read (in the embedding it is a function from the gate
state to `Bool` that produces no new state, mirroring the source's single
atomic load), so it neither reserves a slot nor changes any state. -/
theorem can_accept_work_iff (p : WorkerPool) :
    (p.can_accept_work = false ↔ p.size ≤ p.active_workers)
      ∧ (p.can_accept_work = true ↔ p.active_workers < p.size) := by
  rw [WorkerPool.can_accept_work_eq]
  constructor
  · simp [Nat.not_lt]
  · simp

/-- C4: with capacity 1, the interleaving in which both callers perform
their `can_accept_work` read before either increments is realisable: both
reads see the fresh state and return `true`, then the two unchecked
increments run, and afterwards the counter is 2 while the capacity is
still 1 — the check-then-act pair does not enforce `active <= capacity`. -/
theorem check_then_act_race :
    (WorkerPool.can_accept_work ⟨1, 0⟩ = true)
      ∧ (WorkerPool.can_accept_work ⟨1, 0⟩ = true)
      ∧ (WorkerPool.runOps ⟨1, 0⟩ [GateOp.incr, GateOp.incr]).active_workers = 2
      ∧ (WorkerPool.runOps ⟨1, 0⟩ [GateOp.incr, GateOp.incr]).size
          < (WorkerPool.runOps ⟨1, 0⟩ [GateOp.incr, GateOp.incr]).active_workers := by
  have hrun : (WorkerPool.runOps ⟨1, 0⟩ [GateOp.incr, GateOp.incr]).active_workers = 2 := by
    rw [WorkerPool.runOps_cons, WorkerPool.runOps_cons, WorkerPool.runOps_nil,
      WorkerPool.applyOp_incr, WorkerPool.applyOp_incr,
      WorkerPool.increment_active_active, WorkerPool.increment_active_active]
    norm_num
  have hsize : (WorkerPool.runOps ⟨1, 0⟩ [GateOp.incr, GateOp.incr]).size = 1 :=
    WorkerPool.runOps_size _ _
  refine ⟨rfl, rfl, hrun, ?_⟩
  rw [hrun, hsize]
  norm_num

/-- C6 (amended): `increment_active` adds one to the counter modulo
`2 ^ 64` in every gate state — exactly one whenever the counter is below
`usize::MAX` — returns no value, cannot fail (it is a total function), and
performs no capacity check: its result on the counter is independent of
the capacity field, which it leaves unchanged. -/
theorem increment_active_spec (p : WorkerPool) :
    (p.increment_active).active_workers = (p.active_workers + 1) % 2 ^ 64
      ∧ (p.active_workers + 1 < 2 ^ 64 →
          (p.increment_active).active_workers = p.active_workers + 1)
      ∧ (p.increment_active).size = p.size
      ∧ ∀ s : Nat,
          (WorkerPool.increment_active ⟨s, p.active_workers⟩).active_workers
            = (p.increment_active).active_workers := by
  refine ⟨WorkerPool.increment_active_active p, ?_, WorkerPool.increment_active_size p, ?_⟩
  · intro hlt
    rw [WorkerPool.increment_active_active, Nat.mod_eq_of_lt hlt]
  · intro s
    rw [WorkerPool.increment_active_active, WorkerPool.increment_active_active]

theorem increment_active_spec_witness :
    (WorkerPool.increment_active ⟨2, 5⟩).active_workers = 6 :=
  (increment_active_spec ⟨2, 5⟩).2.1 (by norm_num)

/-- C6 counterexample: at a gate state whose counter holds `usize::MAX`
(reachable, e.g. by one `decrement_active` on a fresh pool), `increment_active`
wraps the counter to `0`, which is not the old counter plus one. -/
theorem increment_active_wraps_at_max :
    (WorkerPool.increment_active ⟨1, 2 ^ 64 - 1⟩).active_workers = 0
      ∧ (WorkerPool.increment_active ⟨1, 2 ^ 64 - 1⟩).active_workers
          ≠ (2 ^ 64 - 1) + 1 := by
  have h : (WorkerPool.increment_active ⟨1, 2 ^ 64 - 1⟩).active_workers = 0 := by
    rw [WorkerPool.increment_active_active]
    norm_num
  refine ⟨h, ?_⟩
  rw [h]
  norm_num

/-- C7 (amended): `decrement_active` unconditionally subtracts one from the
counter modulo `2 ^ 64` (embedded as adding `2 ^ 64 - 1`); over-calling it
past the number of increments wraps the unsigned counter, so after `n`
increments followed by `n + 1` decrements the counter reads `2 ^ 64 - 1`
(`usize::MAX`), not a negative value — the counter type has no negative
values. -/
theorem decrement_active_spec (n : Nat) (p : WorkerPool) :
    (p.decrement_active).active_workers
        = (p.active_workers + (2 ^ 64 - 1)) % 2 ^ 64
      ∧ (WorkerPool.runOps ⟨1, 0⟩
            (List.replicate n GateOp.incr
              ++ List.replicate (n + 1) GateOp.decr)).active_workers
        = 2 ^ 64 - 1 := by
  refine ⟨WorkerPool.decrement_active_active p, ?_⟩
  rw [WorkerPool.runOps_active _ _ (by norm_num)]
  simp [List.count_append, List.count_replicate]
  omega

/-- C7 counterexample: one `decrement_active` on a fresh gate (zero
increments, one decrement) leaves the counter at `2 ^ 64 - 1`, and the
counter is not below zero — it is unsigned and can never be. -/
theorem release_below_zero_counterexample :
    (WorkerPool.runOps ⟨1, 0⟩ [GateOp.decr]).active_workers = 2 ^ 64 - 1
      ∧ ¬ (WorkerPool.runOps ⟨1, 0⟩ [GateOp.decr]).active_workers < 0 := by
  constructor
  · rw [WorkerPool.runOps_cons, WorkerPool.runOps_nil, WorkerPool.applyOp_decr,
      WorkerPool.decrement_active_active]
    norm_num
  · exact Nat.not_lt_zero _

/-- C10: `decrement_active` on a gate whose counter is `0` wraps the
unsigned counter to `usize::MAX = 2 ^ 64 - 1` instead of going negative; a
subsequent `active_workers` read returns `2 ^ 64 - 1` and
`can_accept_work` returns `false` for every capacity below `usize::MAX`. -/
theorem decrement_on_zero_wraps (s : Nat) :
    (WorkerPool.decrement_active ⟨s, 0⟩).active_workers = 2 ^ 64 - 1
      ∧ (s < 2 ^ 64 - 1 →
          (WorkerPool.decrement_active ⟨s, 0⟩).can_accept_work = false) := by
  have hact : (WorkerPool.decrement_active ⟨s, 0⟩).active_workers = 2 ^ 64 - 1 := by
    rw [WorkerPool.decrement_active_active]
    norm_num
  refine ⟨hact, ?_⟩
  intro hs
  rw [WorkerPool.can_accept_work_eq, hact, WorkerPool.decrement_active_size]
  simp only [decide_eq_false_iff_not, Nat.not_lt]
  exact Nat.le_of_lt hs

theorem decrement_on_zero_wraps_witness :
    (WorkerPool.decrement_active ⟨3, 0⟩).can_accept_work = false :=
  (decrement_on_zero_wraps 3).2 (by norm_num)

/-- C1 (amended): for every gate built with any capacity, and every
interleaving of `k` `increment_active` calls and `j` `decrement_active`
calls with `j <= k`, the counter afterwards equals exactly `k - j`,
provided `k - j` fits in the unsigned counter (`k - j < 2 ^ 64`); with
more than `2 ^ 64` net increments the `usize` counter wraps. -/
theorem interleaving_active_count (s : Nat) (ops : List GateOp) (k j : Nat)
    (hk : ops.count GateOp.incr = k) (hj : ops.count GateOp.decr = j)
    (hjk : j ≤ k) (hlt : k - j < 2 ^ 64) :
    (WorkerPool.runOps ⟨s, 0⟩ ops).active_workers = k - j := by
  rw [WorkerPool.runOps_active _ _ (by norm_num), hk, hj]
  have hz : (WorkerPool.mk s 0).active_workers = 0 := rfl
  rw [hz]
  have h64 : (2:Nat) ^ 64 = 18446744073709551616 := by norm_num
  rw [h64] at hlt ⊢
  omega

theorem interleaving_active_count_witness :
    (WorkerPool.runOps ⟨2, 0⟩
        [GateOp.incr, GateOp.incr, GateOp.decr, GateOp.incr]).active_workers = 2 :=
  interleaving_active_count 2 [GateOp.incr, GateOp.incr, GateOp.decr, GateOp.incr]
    3 1 (by decide) (by decide) (by norm_num) (by norm_num)

/-- C1 counterexample: an interleaving of `k = 2 ^ 64` increments and
`j = 0` decrements leaves the wrapped `usize` counter at `0`, not at
`k - j = 2 ^ 64`. -/
theorem interleaving_active_count_wraps :
    (List.replicate (2 ^ 64) GateOp.incr).count GateOp.incr = 2 ^ 64
      ∧ (List.replicate (2 ^ 64) GateOp.incr).count GateOp.decr = 0
      ∧ (WorkerPool.runOps ⟨1, 0⟩
            (List.replicate (2 ^ 64) GateOp.incr)).active_workers = 0
      ∧ (0 : Nat) ≠ 2 ^ 64 - 0 := by
  have hincr : (List.replicate (2 ^ 64) GateOp.incr).count GateOp.incr = 2 ^ 64 :=
    List.count_replicate_self _ _
  have hdecr : (List.replicate (2 ^ 64) GateOp.incr).count GateOp.decr = 0 := by
    rw [List.count_replicate]; decide
  refine ⟨hincr, hdecr, ?_, by norm_num⟩
  rw [WorkerPool.runOps_active _ _ (by norm_num), hincr, hdecr]
  norm_num

/-- Model of the polling loop of `WorkerPool::wait_for_completion`.  The
loop performs one atomic load per iteration (`obs i` is the value the
`i`-th load observes; other tasks may change the counter between loads,
which is why the loads form an arbitrary sequence), keeps looping while
the loaded value is positive, and performs no store.  `wait_for_completion_returns_at obs t`
says the loop exits at its `t`-th load: that load observes `0` and every
earlier load observed a positive value. -/
def wait_for_completion_returns_at (obs : Nat → Nat) (t : Nat) : Bool :=
  obs t == 0 && (List.range t).all fun s => !(obs s == 0)

/-- C5: the polling loop of `wait_for_completion` returns only at a point
where the counter has just been observed to be `0`; if the counter never
reads `0`, the loop never exits.  The loop body is a load and a sleep — in
the embedding it is a predicate over the observed counter values and
constructs no new gate state, so it modifies nothing while waiting. -/
theorem wait_for_completion_spec (obs : Nat → Nat) (t : Nat) :
    (wait_for_completion_returns_at obs t = true → obs t = 0)
      ∧ ((∀ i : Nat, 0 < obs i) → wait_for_completion_returns_at obs t = false) := by
  constructor
  · intro h
    unfold wait_for_completion_returns_at at h
    rw [Bool.and_eq_true, beq_iff_eq] at h
    exact h.1
  · intro h
    unfold wait_for_completion_returns_at
    rw [Bool.and_eq_false_iff]
    left
    rw [beq_eq_false_iff_ne]
    exact Nat.pos_iff_ne_zero.mp (h t)

theorem wait_for_completion_spec_witness :
    (fun i => 1 - i) 1 = 0
      ∧ wait_for_completion_returns_at (fun _ => 1) 3 = false :=
  ⟨(wait_for_completion_spec (fun i => 1 - i) 1).1 (by decide),
   (wait_for_completion_spec (fun _ => 1) 3).2 fun _ => Nat.one_pos⟩

/-- A `WorkerPool` handle as held by one caller, with the `Arc` indirection
made explicit: `size` is an owned copy of the capacity, `active_ref` is the
reference to the shared `AtomicUsize` in a counter store.  `#[derive(Clone)]`
on the source struct copies `size` (a plain `usize`) and clones the `Arc`,
which yields the same reference, not a new counter. -/
structure Handle where
  size : Nat
  active_ref : Nat
deriving DecidableEq, Repr

/-- The derived `Clone::clone`: field-wise, copying the capacity and the
`Arc` reference. -/
def Handle.clone (h : Handle) : Handle :=
  { size := h.size, active_ref := h.active_ref }

/-- The store of shared counters: a map from references to counter values. -/
def CounterStore : Type := Nat → Nat

/-- `active_workers()` through a handle: load the referenced shared counter. -/
def Handle.active_workers (h : Handle) (σ : CounterStore) : Nat :=
  σ h.active_ref

/-- `can_accept_work()` through a handle: load, then compare with the
handle's capacity. -/
def Handle.can_accept_work (h : Handle) (σ : CounterStore) : Bool :=
  h.active_workers σ < h.size

/-- `increment_active()` through a handle: `fetch_add(1)` on the referenced
shared counter, leaving every other counter unchanged. -/
def Handle.increment_active (h : Handle) (σ : CounterStore) : CounterStore :=
  fun r => if r = h.active_ref then (σ r + 1) % 2 ^ 64 else σ r

/-- `decrement_active()` through a handle: `fetch_sub(1)` on the referenced
shared counter, leaving every other counter unchanged. -/
def Handle.decrement_active (h : Handle) (σ : CounterStore) : CounterStore :=
  fun r => if r = h.active_ref then (σ r + (2 ^ 64 - 1)) % 2 ^ 64 else σ r

/-- C8: cloning a handle yields a handle with the same capacity and the
same counter reference (sharing, not copying), and an increment or
decrement performed through one handle is observed through every handle
referencing the same counter: their `active_workers` load returns the
updated value, and their `can_accept_work` (the read `wait_for_completion`
also polls) compares the updated value with the capacity. -/
theorem clone_shares_counter (h h' : Handle) (σ : CounterStore)
    (hsame : h'.active_ref = h.active_ref) :
    h.clone = h
      ∧ Handle.active_workers h' (h.increment_active σ)
          = (h.active_workers σ + 1) % 2 ^ 64
      ∧ Handle.active_workers h' (h.decrement_active σ)
          = (h.active_workers σ + (2 ^ 64 - 1)) % 2 ^ 64
      ∧ Handle.can_accept_work h' (h.increment_active σ)
          = decide ((h.active_workers σ + 1) % 2 ^ 64 < h'.size) := by
  have hincr : Handle.active_workers h' (h.increment_active σ)
      = (h.active_workers σ + 1) % 2 ^ 64 := by
    unfold Handle.active_workers Handle.increment_active
    rw [hsame, if_pos rfl]
  have hdecr : Handle.active_workers h' (h.decrement_active σ)
      = (h.active_workers σ + (2 ^ 64 - 1)) % 2 ^ 64 := by
    unfold Handle.active_workers Handle.decrement_active
    rw [hsame, if_pos rfl]
  refine ⟨rfl, hincr, hdecr, ?_⟩
  unfold Handle.can_accept_work
  rw [hincr]

theorem clone_shares_counter_witness :
    Handle.active_workers ⟨1, 0⟩ (Handle.increment_active ⟨1, 0⟩ fun _ => 0)
      = (Handle.active_workers ⟨1, 0⟩ (fun _ => 0) + 1) % 2 ^ 64 :=
  (clone_shares_counter ⟨1, 0⟩ ⟨1, 0⟩ (fun _ => 0) rfl).2.1

/-- C9: the capacity returned by `size()` is the one fixed at construction
(`size()` is a pure field read with no side effect and no failure path),
and no gate operation — increment, decrement, nor any interleaving of
them, and the pure reads trivially — ever changes the capacity field. -/
theorem size_immutable (s : Nat) (p : WorkerPool) (ops : List GateOp)
    (hnew : WorkerPool.new s = .ok p) :
    p.size = s
      ∧ (p.increment_active).size = p.size
      ∧ (p.decrement_active).size = p.size
      ∧ (p.runOps ops).size = p.size := by
  have hp : p = ⟨s, 0⟩ := by
    unfold WorkerPool.new at hnew
    by_cases hs : s = 0
    · rw [if_pos hs] at hnew
      exact absurd hnew (by simp)
    · rw [if_neg hs] at hnew
      cases hnew
      rfl
  subst hp
  exact ⟨rfl, WorkerPool.increment_active_size _, WorkerPool.decrement_active_size _,
    WorkerPool.runOps_size _ _⟩

theorem size_immutable_witness :
    (WorkerPool.increment_active ⟨2, 0⟩).size = (⟨2, 0⟩ : WorkerPool).size :=
  (size_immutable 2 ⟨2, 0⟩ [] rfl).2.1
